import Mathlib

/-!
Verification of the `weak_static` crate (src/src/lib.rs).

The macro `weak_static!` generates, for a declared singleton, an accessor

    fn IDENT() -> Arc<T> {
        lazy_static! { static ref VALUE: Mutex<Weak<T>> = Default::default(); }
        let mut value = VALUE.lock().unwrap();
        value.upgrade().unwrap_or_else(|| {
            let new_value = Arc::new($init);
            *value = Arc::downgrade(&new_value);
            new_value
        })
    }

Shallow embedding.  Each Arc instance ever created is identified by the
index at which it was allocated; `counts` maps each instance id to its
current strong reference count (so instance `i` is alive iff
`counts.getD i 0 > 0`).  The slot's `Weak<T>` is `slot : Option Nat`
(`none` models `Weak::new()`, the `Default::default()` value; `some i`
models `Arc::downgrade` of instance `i` — possibly stale if `i` has since
died).  `poisoned` models `std::sync::Mutex` poisoning: a panic of `$init`
occurs while the `MutexGuard` is held, which poisons the mutex, and a later
`VALUE.lock().unwrap()` on a poisoned mutex panics.  `initCount` counts
evaluations of the `$init` expression (its side effects).
-/

structure State where
  counts : List Nat
  slot : Option Nat
  poisoned : Bool
  initCount : Nat
deriving DecidableEq, Repr

/-- Strong reference count of instance `i`: instance `i` is alive iff this
is positive. -/
def strongCount (s : State) (i : Nat) : Nat :=
  s.counts.getD i 0

/-- The initial slot state: `Default::default()` for `Mutex<Weak<T>>`, i.e.
an unpoisoned mutex around `Weak::new()`, and the initializer has never
been evaluated. -/
def initState : State :=
  { counts := [], slot := none, poisoned := false, initCount := 0 }

/-- Result of one accessor call: either a strong handle (the id of the Arc
instance it refers to) together with the post state, or a propagated panic
together with the post state. -/
inductive AcqResult where
  | ok (id : Nat) (s : State)
  | panicked (s : State)
deriving DecidableEq, Repr

/-- The post state of an accessor call, whether it returned or panicked. -/
def AcqResult.state : AcqResult → State
  | .ok _ s => s
  | .panicked s => s

/-- Model of `Weak::upgrade` on the slot's stored weak reference (line 72):
succeeds iff the stored reference points at an instance whose strong count
is still positive, in which case it returns a strong handle to it. -/
def upgrade (s : State) : Option Nat :=
  match s.slot with
  | none => none
  | some id => if 0 < s.counts.getD id 0 then some id else none

/-- Model of one call of the generated accessor (lines 70-78).
`initPanics` fixes the behaviour of the `$init` expression for this call:
`false` means it returns a fresh value, `true` means it panics.
Line by line: `VALUE.lock().unwrap()` panics iff the mutex is poisoned;
on upgrade success the upgraded Arc is returned (one extra strong count,
nothing else touched); on upgrade failure `$init` is evaluated — if it
panics the guard is dropped during unwind, poisoning the mutex, with the
slot's weak reference unmodified; otherwise `Arc::new` allocates a fresh
instance with strong count 1, `*value = Arc::downgrade(&new_value)`
overwrites the slot, and the new Arc is returned. -/
def acquire (initPanics : Bool) (s : State) : AcqResult :=
  if s.poisoned = true then
    AcqResult.panicked s
  else
    match upgrade s with
    | some id =>
        AcqResult.ok id { s with counts := s.counts.set id (s.counts.getD id 0 + 1) }
    | none =>
        if initPanics = true then
          AcqResult.panicked { s with poisoned := true, initCount := s.initCount + 1 }
        else
          AcqResult.ok s.counts.length
            { s with
                counts := s.counts ++ [1],
                slot := some s.counts.length,
                initCount := s.initCount + 1 }

/-- Model of dropping one strong handle to instance `id`: its strong count
decreases by one.  Destruction is not synchronized with the slot's lock;
the slot's weak reference is left untouched (it goes stale when the count
reaches zero). -/
def dropHandle (id : Nat) (s : State) : State :=
  { s with counts := s.counts.set id (s.counts.getD id 0 - 1) }

/-- States reachable from the initial slot state by accessor calls (with
either initializer behaviour) and handle drops. -/
inductive Reachable : State → Prop
  | init : Reachable initState
  | acq {s : State} (b : Bool) : Reachable s → Reachable (acquire b s).state
  | rel {s : State} (id : Nat) : Reachable s → Reachable (dropHandle id s)

/-- Observable events of the worked example: `Foo::new` prints "new" (a
side effect of the `$init` expression), `Foo::drop` prints "drop" (runs
when the last strong handle is dropped). -/
inductive Ev where
  | new
  | drop
deriving DecidableEq, Repr

/-- Client operations of the worked example: call the accessor, or drop a
held handle to instance `id`. -/
inductive Op where
  | acq
  | rel (id : Nat)
deriving DecidableEq, Repr

/-- One client operation together with the events it prints: an accessor
call prints "new" exactly when it evaluates the initializer; dropping a
handle prints "drop" exactly when the strong count goes from 1 to 0. -/
def step : Op → State → State × List Ev
  | Op.acq, s =>
      match acquire false s with
      | .ok _ s' => (s', if s'.initCount = s.initCount then [] else [Ev.new])
      | .panicked s' => (s', [])
  | Op.rel id, s =>
      (dropHandle id s, if s.counts.getD id 0 = 1 then [Ev.drop] else [])

/-- Run a sequence of client operations from a state, collecting printed
events in order. -/
def run : List Op → State → State × List Ev
  | [], s => (s, [])
  | op :: ops, s =>
      let p := step op s
      let q := run ops p.1
      (q.1, p.2 ++ q.2)

/-- Claim C10: the slot is initialized to `Default::default()` — a mutex
around an empty `Weak` — so upgrading it yields `None` and the very first
accessor call takes the construction path, evaluating the initializer
exactly once. -/
theorem initial_state_constructs :
    upgrade initState = none ∧
    acquire false initState =
      AcqResult.ok 0 { counts := [1], slot := some 0, poisoned := false, initCount := 1 } := by
  decide

/-- Claim C8: the worked example — three accessor calls with all handles
retained, then all three dropped, then the same pattern again — prints
exactly `new, drop, new, drop`. -/
theorem end_to_end_scenario :
    (run [Op.acq, Op.acq, Op.acq, Op.rel 0, Op.rel 0, Op.rel 0,
          Op.acq, Op.acq, Op.acq, Op.rel 1, Op.rel 1, Op.rel 1] initState).2 =
      [Ev.new, Ev.drop, Ev.new, Ev.drop] := by
  decide

/-- Locking a poisoned mutex: `VALUE.lock().unwrap()` panics and nothing
else happens. -/
theorem acquire_poisoned (s : State) (b : Bool) (hp : s.poisoned = true) :
    acquire b s = AcqResult.panicked s := by
  unfold acquire
  simp [hp]

/-- Claim C5 counterexample: when the initializer panics on the very first
call, the failure propagates and the slot's reference is not mutated, but
the next accessor call does NOT retry construction — the guard was dropped
during unwind with the mutex poisoned, so the call panics at
`VALUE.lock().unwrap()` without evaluating the initializer. -/
theorem init_panic_retry_cex :
    acquire true initState =
      AcqResult.panicked { counts := [], slot := none, poisoned := true, initCount := 1 } ∧
    acquire false { counts := [], slot := none, poisoned := true, initCount := 1 } =
      AcqResult.panicked { counts := [], slot := none, poisoned := true, initCount := 1 } := by
  decide

/-! Helper lemmas about `List.getD` with default `0`. -/

/-- Reading an index out of range yields the default. -/
theorem getD_eq_zero_of_le : ∀ (l : List Nat) (j : Nat), l.length ≤ j → l.getD j 0 = 0
  | [], _, _ => rfl
  | _ :: _, 0, h => absurd h (Nat.not_succ_le_zero _)
  | _ :: l, j + 1, h => getD_eq_zero_of_le l j (Nat.le_of_succ_le_succ h)

/-- A positive entry lies inside the list. -/
theorem lt_length_of_getD_pos {l : List Nat} {j : Nat} (h : 0 < l.getD j 0) :
    j < l.length := by
  by_contra hge
  rw [getD_eq_zero_of_le l j (Nat.le_of_not_lt hge)] at h
  exact Nat.lt_irrefl 0 h

/-- Setting an in-range index then reading it back gives the new value. -/
theorem getD_set_self : ∀ (l : List Nat) (i v : Nat), i < l.length → (l.set i v).getD i 0 = v
  | [], i, _, h => absurd h (Nat.not_lt_zero i)
  | _ :: _, 0, _, _ => rfl
  | _ :: l, i + 1, v, h => getD_set_self l i v (Nat.lt_of_succ_lt_succ h)

/-- Setting one index leaves every other index unchanged. -/
theorem getD_set_ne : ∀ (l : List Nat) (i j v : Nat), i ≠ j → (l.set i v).getD j 0 = l.getD j 0
  | [], _, _, _, _ => rfl
  | _ :: _, 0, 0, _, h => absurd rfl h
  | _ :: _, 0, _ + 1, _, _ => rfl
  | _ :: _, _ + 1, 0, _, _ => rfl
  | _ :: l, i + 1, j + 1, v, h =>
      getD_set_ne l i j v (fun e => h (congrArg Nat.succ e))

/-- Appending one element does not change reads inside the original list. -/
theorem getD_append_lt : ∀ (l : List Nat) (v j : Nat), j < l.length →
    (l ++ [v]).getD j 0 = l.getD j 0
  | [], _, j, h => absurd h (Nat.not_lt_zero j)
  | _ :: _, _, 0, _ => rfl
  | _ :: l, v, j + 1, h => getD_append_lt l v j (Nat.lt_of_succ_lt_succ h)

/-- Reading an appended list at the old length gives the appended element. -/
theorem getD_append_len : ∀ (l : List Nat) (v : Nat), (l ++ [v]).getD l.length 0 = v
  | [], _ => rfl
  | _ :: l, v => getD_append_len l v

/-! Characterizations of `upgrade` and the accessor's two return paths. -/

/-- Upgrade succeeds with instance `id` iff the slot stores `id` and `id`
is still alive. -/
theorem upgrade_eq_some_iff (s : State) (id : Nat) :
    upgrade s = some id ↔ s.slot = some id ∧ 0 < strongCount s id := by
  unfold upgrade strongCount
  cases h : s.slot with
  | none => simp
  | some j =>
      show (if 0 < s.counts.getD j 0 then some j else none) = some id ↔ _
      constructor
      · intro h1
        by_cases hc : 0 < s.counts.getD j 0
        · rw [if_pos hc] at h1
          obtain rfl : j = id := Option.some.inj h1
          exact ⟨rfl, hc⟩
        · rw [if_neg hc] at h1
          exact Option.noConfusion h1
      · rintro ⟨h1, h2⟩
        obtain rfl : j = id := Option.some.inj h1
        exact if_pos h2

/-- Hit path (line 72, upgrade succeeds): the accessor returns the upgraded
handle and the only state change is that handle's reference-count
increment. -/
theorem acquire_hit (s : State) (b : Bool) (id : Nat)
    (hp : s.poisoned = false) (hu : upgrade s = some id) :
    acquire b s =
      AcqResult.ok id { s with counts := s.counts.set id (s.counts.getD id 0 + 1) } := by
  unfold acquire
  simp [hp, hu]

/-- Miss path (lines 72-77, upgrade fails, initializer succeeds): the
accessor allocates a fresh instance with strong count 1, overwrites the
slot with a weak reference to it, bumps the initializer count, and returns
the new handle. -/
theorem acquire_miss (s : State) (hp : s.poisoned = false) (hu : upgrade s = none) :
    acquire false s =
      AcqResult.ok s.counts.length
        { s with
            counts := s.counts ++ [1],
            slot := some s.counts.length,
            initCount := s.initCount + 1 } := by
  unfold acquire
  simp [hp, hu]

/-- Miss path with a panicking initializer: the panic propagates, the slot
and counts are untouched, the mutex ends up poisoned. -/
theorem acquire_miss_panic (s : State) (hp : s.poisoned = false) (hu : upgrade s = none) :
    acquire true s =
      AcqResult.panicked { s with poisoned := true, initCount := s.initCount + 1 } := by
  unfold acquire
  simp [hp, hu]

/-! The reachability invariant: the slot covers every live instance, and a
poisoned state has no live instance. -/

/-- Every live instance is the one the slot points at. -/
def SlotCoversLive (s : State) : Prop :=
  ∀ i, 0 < strongCount s i → s.slot = some i

/-- A poisoned slot state has no live instance (poisoning only happens on
the construction path, which is only reached when nothing is alive). -/
def DeadWhenPoisoned (s : State) : Prop :=
  s.poisoned = true → ∀ i, strongCount s i = 0

/-- If the slot covers all live instances and upgrade fails, nothing is
alive. -/
theorem all_dead_of_upgrade_none {s : State} (hcov : SlotCoversLive s)
    (hu : upgrade s = none) (i : Nat) : strongCount s i = 0 := by
  by_contra hne
  have hpos : 0 < strongCount s i := Nat.pos_of_ne_zero hne
  have hslot := hcov i hpos
  have : upgrade s = some i := (upgrade_eq_some_iff s i).mpr ⟨hslot, hpos⟩
  rw [hu] at this
  exact Option.noConfusion this

/-- Setting an index at or beyond the end of the list is a no-op. -/
theorem set_out_of_range : ∀ (l : List Nat) (i v : Nat), l.length ≤ i → l.set i v = l
  | [], _, _, _ => rfl
  | _ :: _, 0, _, h => absurd h (Nat.not_succ_le_zero _)
  | a :: l, i + 1, v, h =>
      congrArg (List.cons a) (set_out_of_range l i v (Nat.le_of_succ_le_succ h))

/-- Both invariants hold in every reachable state. -/
theorem reachable_inv {s : State} (hr : Reachable s) :
    SlotCoversLive s ∧ DeadWhenPoisoned s := by
  induction hr with
  | init =>
      refine ⟨fun i h => ?_, fun _ i => rfl⟩
      exact absurd h (by simp [strongCount, initState])
  | acq b hr ih =>
      obtain ⟨hcov, hdead⟩ := ih
      rename_i t
      by_cases hp : t.poisoned = true
      · rw [acquire_poisoned t b hp]
        exact ⟨hcov, hdead⟩
      · have hp' : t.poisoned = false := Bool.eq_false_iff.mpr hp
        cases hu : upgrade t with
        | some id =>
            obtain ⟨hslot, hpos⟩ := (upgrade_eq_some_iff t id).mp hu
            rw [acquire_hit t b id hp' hu]
            dsimp only [AcqResult.state, SlotCoversLive, DeadWhenPoisoned, strongCount]
            constructor
            · intro i hi
              by_cases hii : id = i
              · subst hii
                exact hslot
              · rw [getD_set_ne t.counts id i _ hii] at hi
                exact hcov i hi
            · intro hfalse
              rw [hp'] at hfalse
              exact Bool.noConfusion hfalse
        | none =>
            have hall : ∀ i, t.counts.getD i 0 = 0 :=
              fun i => all_dead_of_upgrade_none hcov hu i
            cases b with
            | true =>
                rw [acquire_miss_panic t hp' hu]
                dsimp only [AcqResult.state, SlotCoversLive, DeadWhenPoisoned, strongCount]
                exact ⟨fun i hi => hcov i hi, fun _ i => hall i⟩
            | false =>
                rw [acquire_miss t hp' hu]
                dsimp only [AcqResult.state, SlotCoversLive, DeadWhenPoisoned, strongCount]
                constructor
                · intro i hi
                  rcases Nat.lt_trichotomy i t.counts.length with hlt | heq | hgt
                  · rw [getD_append_lt t.counts 1 i hlt, hall i] at hi
                    exact absurd hi (Nat.lt_irrefl 0)
                  · rw [heq]
                  · rw [getD_eq_zero_of_le (t.counts ++ [1]) i
                        (by simp only [List.length_append, List.length_cons,
                          List.length_nil]; omega)] at hi
                    exact absurd hi (Nat.lt_irrefl 0)
                · intro hfalse
                  rw [hp'] at hfalse
                  exact Bool.noConfusion hfalse
  | rel id hr ih =>
      obtain ⟨hcov, hdead⟩ := ih
      rename_i t
      dsimp only [SlotCoversLive, DeadWhenPoisoned, strongCount, dropHandle]
      constructor
      · intro i hi
        by_cases hii : id = i
        · subst hii
          by_cases hlt : id < t.counts.length
          · rw [getD_set_self t.counts id _ hlt] at hi
            exact hcov id (Nat.lt_of_lt_of_le hi (Nat.sub_le _ _))
          · rw [set_out_of_range t.counts id _ (Nat.le_of_not_lt hlt)] at hi
            exact hcov id hi
        · rw [getD_set_ne t.counts id i _ hii] at hi
          exact hcov i hi
      · intro hpois i
        have hall : ∀ j, t.counts.getD j 0 = 0 := hdead hpois
        by_cases hii : id = i
        · subst hii
          by_cases hlt : id < t.counts.length
          · rw [getD_set_self t.counts id _ hlt, hall id]
          · rw [set_out_of_range t.counts id _ (Nat.le_of_not_lt hlt)]
            exact hall id
        · rw [getD_set_ne t.counts id i _ hii]
          exact hall i

/-! Claim theorems. -/

/-- Claim C1: while a strong handle from a prior accessor call is still
held (instance `id` is alive in a reachable state), a further accessor
call returns a handle to that same instance, allocates no new instance,
and evaluates the initializer zero times — whatever the initializer would
have done. -/
theorem reuse_while_alive (s : State) (b : Bool) (id : Nat)
    (hr : Reachable s) (hl : 0 < strongCount s id) :
    ∃ s', acquire b s = AcqResult.ok id s' ∧
      s'.initCount = s.initCount ∧
      s'.counts.length = s.counts.length ∧
      s'.slot = s.slot := by
  obtain ⟨hcov, hdead⟩ := reachable_inv hr
  have hp : s.poisoned = false := by
    cases hpb : s.poisoned
    · rfl
    · rw [hdead hpb id] at hl
      exact absurd hl (Nat.lt_irrefl 0)
  have hu : upgrade s = some id := (upgrade_eq_some_iff s id).mpr ⟨hcov id hl, hl⟩
  refine ⟨_, acquire_hit s b id hp hu, rfl, ?_, rfl⟩
  show (s.counts.set id (s.counts.getD id 0 + 1)).length = s.counts.length
  exact List.length_set s.counts id _

/-- Witness for `reuse_while_alive`: after one constructing call the
instance is alive, and a second call returns the same instance with no
initializer evaluation. -/
theorem reuse_while_alive_witness :
    ∃ s', acquire true { counts := [1], slot := some 0, poisoned := false, initCount := 1 } =
        AcqResult.ok 0 s' ∧
      s'.initCount = 1 ∧
      s'.counts.length = 1 ∧
      s'.slot = some 0 :=
  reuse_while_alive _ true 0 (Reachable.acq false Reachable.init) (by decide)

/-- Claim C2: when the stored weak reference fails to upgrade, the
accessor evaluates the initializer exactly once, allocates a fresh
instance with strong count 1, overwrites the slot with a weak reference
to it, and returns a handle to an instance distinct from every previously
created (hence every previously destroyed) one. -/
theorem miss_reconstructs (s : State) (hp : s.poisoned = false) (hu : upgrade s = none) :
    ∃ id s', acquire false s = AcqResult.ok id s' ∧
      s'.initCount = s.initCount + 1 ∧
      s'.slot = some id ∧
      strongCount s' id = 1 ∧
      (∀ j, j < s.counts.length → id ≠ j) := by
  refine ⟨s.counts.length, _, acquire_miss s hp hu, rfl, rfl, ?_, ?_⟩
  · show (s.counts ++ [1]).getD s.counts.length 0 = 1
    exact getD_append_len s.counts 1
  · intro j hj
    omega

/-- Witness for `miss_reconstructs` at the initial (never filled) slot. -/
theorem miss_reconstructs_witness :
    ∃ id s', acquire false initState = AcqResult.ok id s' ∧
      s'.initCount = 1 ∧
      s'.slot = some id ∧
      strongCount s' id = 1 ∧
      (∀ j, j < 0 → id ≠ j) :=
  miss_reconstructs initState rfl rfl

/-- Claim C4: in every reachable state, at most one instance is alive
(all outstanding strong handles refer to at most one live instance), and
the slot covers it — the slot never references more than one object. -/
theorem single_liveness (s : State) (hr : Reachable s) :
    (∀ i j, 0 < strongCount s i → 0 < strongCount s j → i = j) ∧
    (∀ i, 0 < strongCount s i → s.slot = some i) := by
  obtain ⟨hcov, _⟩ := reachable_inv hr
  refine ⟨?_, hcov⟩
  intro i j hi hj
  have h1 := hcov i hi
  have h2 := hcov j hj
  rw [h1] at h2
  exact Option.some.inj h2

/-- Witness for `single_liveness` at a reachable state with one live
instance. -/
theorem single_liveness_witness :
    (∀ i j,
      0 < strongCount { counts := [1], slot := some 0, poisoned := false, initCount := 1 } i →
      0 < strongCount { counts := [1], slot := some 0, poisoned := false, initCount := 1 } j →
      i = j) ∧
    (∀ i,
      0 < strongCount { counts := [1], slot := some 0, poisoned := false, initCount := 1 } i →
      ({ counts := [1], slot := some 0, poisoned := false, initCount := 1 } : State).slot =
        some i) :=
  single_liveness _ (Reachable.acq false Reachable.init)

/-- Claim C5 (amended): when the initializer panics, the failure
propagates synchronously to the accessor caller and the slot's stored
reference and counts are untouched (no partially-constructed reference),
but the mutex ends up poisoned — the lock is released during unwind, yet
a subsequent accessor call panics rather than retrying construction. -/
theorem init_panic_atomicity (s : State) (hp : s.poisoned = false) (hu : upgrade s = none) :
    ∃ s', acquire true s = AcqResult.panicked s' ∧
      s'.slot = s.slot ∧
      s'.counts = s.counts ∧
      s'.poisoned = true ∧
      s'.initCount = s.initCount + 1 ∧
      acquire false s' = AcqResult.panicked s' :=
  ⟨_, acquire_miss_panic s hp hu, rfl, rfl, rfl, rfl, by
    unfold acquire
    simp⟩

/-- Witness for `init_panic_atomicity` at the initial slot state. -/
theorem init_panic_atomicity_witness :
    ∃ s', acquire true initState = AcqResult.panicked s' ∧
      s'.slot = none ∧
      s'.counts = [] ∧
      s'.poisoned = true ∧
      s'.initCount = 1 ∧
      acquire false s' = AcqResult.panicked s' :=
  init_panic_atomicity initState rfl rfl

/-- Claim C6: after a prior caller panicked while holding the slot's lock,
the mutex is poisoned and every later accessor call fails at
`VALUE.lock().unwrap()` — the panic propagates to the caller and nothing
is recovered. -/
theorem poisoned_lock_fatal (s : State) (b : Bool) (hp : s.poisoned = true) :
    acquire b s = AcqResult.panicked s :=
  acquire_poisoned s b hp

/-- Witness for `poisoned_lock_fatal` at the concrete state left by a
panicking first initializer. -/
theorem poisoned_lock_fatal_witness :
    acquire false { counts := [], slot := none, poisoned := true, initCount := 1 } =
      AcqResult.panicked { counts := [], slot := none, poisoned := true, initCount := 1 } :=
  poisoned_lock_fatal _ false rfl

/-- Claim C7: on the hit path (the stored weak reference upgrades), the
slot's stored reference, the poison flag and the initializer count are all
unchanged; the only state change is the returned handle's own
reference-count increment, every other instance's count being untouched. -/
theorem hit_frame_condition (s : State) (b : Bool) (id : Nat)
    (hp : s.poisoned = false) (hu : upgrade s = some id) :
    ∃ s', acquire b s = AcqResult.ok id s' ∧
      s'.slot = s.slot ∧
      s'.poisoned = s.poisoned ∧
      s'.initCount = s.initCount ∧
      strongCount s' id = strongCount s id + 1 ∧
      (∀ j, j ≠ id → strongCount s' j = strongCount s j) := by
  obtain ⟨hslot, hpos⟩ := (upgrade_eq_some_iff s id).mp hu
  refine ⟨_, acquire_hit s b id hp hu, rfl, rfl, rfl, ?_, ?_⟩
  · show (s.counts.set id (s.counts.getD id 0 + 1)).getD id 0 = s.counts.getD id 0 + 1
    exact getD_set_self s.counts id _ (lt_length_of_getD_pos hpos)
  · intro j hj
    show (s.counts.set id (s.counts.getD id 0 + 1)).getD j 0 = s.counts.getD j 0
    exact getD_set_ne s.counts id j _ (fun e => hj e.symm)

/-- Witness for `hit_frame_condition` with one live instance. -/
theorem hit_frame_condition_witness :
    ∃ s', acquire false { counts := [1], slot := some 0, poisoned := false, initCount := 1 } =
        AcqResult.ok 0 s' ∧
      s'.slot = some 0 ∧
      s'.poisoned = false ∧
      s'.initCount = 1 ∧
      strongCount s' 0 = 2 ∧
      (∀ j, j ≠ 0 → strongCount s' j =
        strongCount { counts := [1], slot := some 0, poisoned := false, initCount := 1 } j) :=
  hit_frame_condition _ false 0 rfl rfl

/-- Claim C9: the slot stores `Arc::downgrade` of the Arc a constructing
call returns, so immediately after that call the stored weak reference
upgrades to the very instance of the returned handle — and in any
reachable state in which that instance is still alive, upgrading the slot
still yields it. -/
theorem downgrade_upgrade_roundtrip (s : State) (id : Nat) (s' : State)
    (hp : s.poisoned = false) (hm : upgrade s = none)
    (hok : acquire false s = AcqResult.ok id s') :
    upgrade s' = some id ∧
    (∀ t, Reachable t → 0 < strongCount t id → upgrade t = some id) := by
  rw [acquire_miss s hp hm] at hok
  injection hok with h1 h2
  subst h1
  subst h2
  constructor
  · rw [upgrade_eq_some_iff]
    refine ⟨rfl, ?_⟩
    show 0 < (s.counts ++ [1]).getD s.counts.length 0
    rw [getD_append_len]
    exact Nat.one_pos
  · intro t htr htl
    obtain ⟨hcov, _⟩ := reachable_inv htr
    exact (upgrade_eq_some_iff t _).mpr ⟨hcov _ htl, htl⟩

/-- Witness for `downgrade_upgrade_roundtrip` at the first constructing
call. -/
theorem downgrade_upgrade_roundtrip_witness :
    upgrade { counts := [1], slot := some 0, poisoned := false, initCount := 1 } = some 0 ∧
    (∀ t, Reachable t → 0 < strongCount t 0 → upgrade t = some 0) :=
  downgrade_upgrade_roundtrip initState 0 _ rfl rfl rfl

/-- N accessor calls in the order the mutex serializes them, each caller
retaining its handle: the list of returned handles in order. -/
def acquireN : Nat → State → State × List Nat
  | 0, s => (s, [])
  | n + 1, s =>
      match acquire false s with
      | .ok id s' => ((acquireN n s').1, id :: (acquireN n s').2)
      | .panicked s' => (s', [])

/-- Serialized accessor calls that all start at a state with a live
instance keep returning that instance and never touch the initializer. -/
theorem acquireN_hit (n : Nat) (t : State) (id : Nat)
    (hp : t.poisoned = false) (hu : upgrade t = some id) :
    (acquireN n t).1.initCount = t.initCount ∧
    (acquireN n t).2 = List.replicate n id := by
  induction n generalizing t with
  | zero => exact ⟨rfl, rfl⟩
  | succ n ih =>
      have heq := acquire_hit t false id hp hu
      have hp' : ({ t with counts := t.counts.set id (t.counts.getD id 0 + 1) } : State).poisoned
          = false := hp
      have hu' : upgrade { t with counts := t.counts.set id (t.counts.getD id 0 + 1) }
          = some id := by
        obtain ⟨hslot, hpos⟩ := (upgrade_eq_some_iff t id).mp hu
        rw [upgrade_eq_some_iff]
        refine ⟨hslot, ?_⟩
        show 0 < (t.counts.set id (t.counts.getD id 0 + 1)).getD id 0
        rw [getD_set_self t.counts id _ (lt_length_of_getD_pos hpos)]
        omega
      obtain ⟨ih1, ih2⟩ := ih _ hp' hu'
      unfold acquireN
      rw [heq]
      dsimp only
      exact ⟨ih1, by rw [ih2, List.replicate_succ]⟩

/-- Claim C3: the mutex totally orders N concurrent accessor calls made
while no instance is alive; in that serialization the first call
constructs and every later call resolves the freshly stored reference, so
the initializer is evaluated exactly once and all N callers receive
handles to the same instance. -/
theorem exactly_once_under_contention (s : State) (n : Nat)
    (hp : s.poisoned = false) (hu : upgrade s = none) (hn : 0 < n) :
    (acquireN n s).1.initCount = s.initCount + 1 ∧
    (acquireN n s).2 = List.replicate n s.counts.length := by
  cases n with
  | zero => exact absurd hn (Nat.lt_irrefl 0)
  | succ m =>
      have heq := acquire_miss s hp hu
      unfold acquireN
      rw [heq]
      dsimp only
      have hp1 : ({ s with
          counts := s.counts ++ [1],
          slot := some s.counts.length,
          initCount := s.initCount + 1 } : State).poisoned = false := hp
      have hu1 : upgrade { s with
          counts := s.counts ++ [1],
          slot := some s.counts.length,
          initCount := s.initCount + 1 } = some s.counts.length := by
        rw [upgrade_eq_some_iff]
        refine ⟨rfl, ?_⟩
        show 0 < (s.counts ++ [1]).getD s.counts.length 0
        rw [getD_append_len]
        exact Nat.one_pos
      obtain ⟨h1, h2⟩ := acquireN_hit m _ s.counts.length hp1 hu1
      exact ⟨h1, by rw [h2, List.replicate_succ]⟩

/-- Witness for `exactly_once_under_contention`: two calls racing on the
empty initial slot produce one construction and two handles to
instance 0. -/
theorem exactly_once_under_contention_witness :
    (acquireN 2 initState).1.initCount = 1 ∧
    (acquireN 2 initState).2 = List.replicate 2 0 :=
  exactly_once_under_contention initState 2 rfl rfl (by decide)
